import Mathlib

/-!
Verification development for the RawZone2 color-pipeline worker.

The definitions below are shallow embeddings of the functions in
`src/raw-worker.js` and `src/exr test/encode_exr_dwaa_rgba_half.c`.
Machine integers are modelled as `Nat`/`Int` with explicit `% 2^w`
where the source wraps; double-precision arithmetic is idealized as
exact real (`ℝ`) or rational (`ℚ`) arithmetic; fallible code returns
`Except`/`Option`.
-/

/-! ## Byte-level helpers (DataView little-endian writes and reads) -/

/-- Little-endian bytes of a 16-bit write (`DataView.setUint16(_, v, true)`).
The source wraps the stored value mod 2^16; the two bytes below agree with
the bytes of `v % 65536`. -/
def u16le (v : Nat) : List Nat := [v % 256, v / 256 % 256]

/-- Little-endian bytes of a 32-bit write (`DataView.setUint32(_, v, true)`). -/
def u32le (v : Nat) : List Nat :=
  [v % 256, v / 256 % 256, v / 65536 % 256, v / 16777216 % 256]

/-- The byte of a buffer at index `i` (0 when out of range). -/
def byteAt (l : List Nat) (i : Nat) : Nat := (l.drop i).headD 0

/-- Little-endian 16-bit read at a byte offset. -/
def readU16le (l : List Nat) (off : Nat) : Nat :=
  byteAt l off + 256 * byteAt l (off + 1)

/-- Little-endian 32-bit read at a byte offset. -/
def readU32le (l : List Nat) (off : Nat) : Nat :=
  byteAt l off + 256 * byteAt l (off + 1) + 65536 * byteAt l (off + 2) +
    16777216 * byteAt l (off + 3)

/-- Serialize a list of 16-bit samples as consecutive little-endian pairs
(the pixel-data loop of the TIFF encoder). -/
def bytesOfU16 : List Nat → List Nat
  | [] => []
  | v :: t => u16le v ++ bytesOfU16 t

theorem u16le_length (v : Nat) : (u16le v).length = 2 := rfl

theorem u32le_length (v : Nat) : (u32le v).length = 4 := rfl

theorem bytesOfU16_length (l : List Nat) : (bytesOfU16 l).length = 2 * l.length := by
  induction l with
  | nil => rfl
  | cons v t ih => simp [bytesOfU16, u16le, ih]; ring

theorem drop_append_len (A B : List Nat) (k : Nat) :
    (A ++ B).drop (A.length + k) = B.drop k := by
  induction A with
  | nil => simp
  | cons a t ih => simp [Nat.succ_add, ih]

theorem byteAt_append_right (A B : List Nat) (n : Nat) (h : A.length ≤ n) :
    byteAt (A ++ B) n = byteAt B (n - A.length) := by
  have hd : (A ++ B).drop n = B.drop (n - A.length) := by
    conv_lhs => rw [show n = A.length + (n - A.length) from (Nat.add_sub_cancel' h).symm]
    exact drop_append_len A B _
  simp [byteAt, hd]

theorem readU16le_append_right (A B : List Nat) (n : Nat) (h : A.length ≤ n) :
    readU16le (A ++ B) n = readU16le B (n - A.length) := by
  unfold readU16le
  rw [byteAt_append_right A B n h, byteAt_append_right A B (n + 1) (by omega)]
  have e1 : n + 1 - A.length = n - A.length + 1 := by omega
  rw [e1]

theorem readU32le_append_right (A B : List Nat) (n : Nat) (h : A.length ≤ n) :
    readU32le (A ++ B) n = readU32le B (n - A.length) := by
  unfold readU32le
  rw [byteAt_append_right A B n h, byteAt_append_right A B (n + 1) (by omega),
    byteAt_append_right A B (n + 2) (by omega), byteAt_append_right A B (n + 3) (by omega)]
  have e1 : n + 1 - A.length = n - A.length + 1 := by omega
  have e2 : n + 2 - A.length = n - A.length + 2 := by omega
  have e3 : n + 3 - A.length = n - A.length + 3 := by omega
  rw [e1, e2, e3]

/-! ## JS numeric helpers -/

/-- `Math.round` on an exact rational (round half up). -/
def jsRoundQ (x : ℚ) : ℤ := ⌊x + 1 / 2⌋

/-- JS `>>> 0` (ToUint32) applied to an integer-valued number. -/
def toU32 (n : ℤ) : Nat := (n % 4294967296).toNat

/-! ## TIFF container encoder
(`encodeTiff16leWithColorimetry`, src/raw-worker.js lines 447-573).

The JS encoder allocates a zero-filled buffer and performs consecutive
non-overlapping `DataView` writes: header, pixel data, BitsPerSample array,
SampleFormat array, WhitePoint rationals, PrimaryChromaticities rationals,
ImageDescription, IFD.  When `pixelsU16.length = width*height*samplesPerPixel`
(the only way the worker calls it) the regions tile the buffer exactly, so the
output is the concatenation of the segments below.  The double-precision
chromaticity values are modelled as exact rationals. -/

/-- `toRational` + `writeRationalPair`: one RATIONAL value as 8 bytes
(numerator rounded at denominator 1,000,000, both stored via `>>> 0`). -/
def rationalBytesOf (x : ℚ) : List Nat :=
  u32le (toU32 (jsRoundQ (x * 1000000))) ++ u32le (toU32 1000000)

/-- WhitePoint region: the given pair, or the D65 default when absent
(mirrors the `whitePoint && whitePoint.length === 2` check). -/
def wpBytesOf : Option (ℚ × ℚ) → List Nat
  | some (wx, wy) => rationalBytesOf wx ++ rationalBytesOf wy
  | none => u32le 312700 ++ u32le 1000000 ++ u32le 329000 ++ u32le 1000000

/-- PrimaryChromaticities region: six RATIONALs with per-channel BT.709
defaults (mirrors `(primaries && primaries.r) || [0.64, 0.33]` etc.). -/
def pcBytesOf (primR primG primB : Option (ℚ × ℚ)) : List Nat :=
  let pr := primR.getD (0.64, 0.33)
  let pg := primG.getD (0.3, 0.6)
  let pb := primB.getD (0.15, 0.06)
  rationalBytesOf pr.1 ++ rationalBytesOf pr.2 ++ rationalBytesOf pg.1 ++
    rationalBytesOf pg.2 ++ rationalBytesOf pb.1 ++ rationalBytesOf pb.2

/-- ImageDescription region: char codes masked to bytes plus a NUL terminator
(mirrors `charCodeAt(i) & 0xff` and the trailing `setUint8(..., 0)`). -/
def descBytesOf (d : List Nat) : List Nat := d.map (· % 256) ++ [0]

/-- One 12-byte IFD entry (`entry(tag, type, count, valueOrOffset)`). -/
def ifdEntry (tag ty count val : Nat) : List Nat :=
  u16le tag ++ u16le ty ++ u32le count ++ u32le val

/-- The 12 bytes of one IFD entry given as a (tag, type, count, value) tuple. -/
def entryBlock (e : Nat × Nat × Nat × Nat) : List Nat :=
  ifdEntry e.1 e.2.1 e.2.2.1 e.2.2.2

/-- The bytes of a sequence of IFD entries, written back to back
(the sequence of `entry(...)` calls in the source). -/
def entriesBytes : List (Nat × Nat × Nat × Nat) → List Nat
  | [] => []
  | e :: t => entryBlock e ++ entriesBytes t

/-- The TIFF encoder (src/raw-worker.js `encodeTiff16leWithColorimetry`).
The description string is modelled as its list of char codes; the fifteen
sequential `entry(...)` calls are modelled as `entriesBytes` of the
corresponding (tag, type, count, value) tuples, in source order. -/
def encodeTiff16leWithColorimetry (width height samplesPerPixel : Nat)
    (bitsPerSampleArr sampleFormatArr : List Nat) (pixelsU16 : List Nat)
    (whitePoint : Option (ℚ × ℚ)) (primR primG primB : Option (ℚ × ℚ))
    (imageDescription : List Nat) : List Nat :=
  let numPixels := width * height
  let imageBytes := numPixels * samplesPerPixel * 2
  let pixelDataOffset := 8
  let bpsOffset := pixelDataOffset + imageBytes
  let sfOffset := bpsOffset + bitsPerSampleArr.length * 2
  let wpOffset := sfOffset + sampleFormatArr.length * 2
  let pcOffset := wpOffset + 2 * 8
  let descByteLen := imageDescription.length + 1
  let descOffset := pcOffset + 6 * 8
  let ifdOffset := descOffset + descByteLen
  let stripOffset := pixelDataOffset
  let stripByteCount := imageBytes
  [0x49, 0x49] ++ u16le 42 ++ u32le ifdOffset ++
    bytesOfU16 pixelsU16 ++
    bytesOfU16 bitsPerSampleArr ++
    bytesOfU16 sampleFormatArr ++
    wpBytesOf whitePoint ++
    pcBytesOf primR primG primB ++
    descBytesOf imageDescription ++
    (u16le 15 ++
      (entriesBytes [
        (256, 4, 1, width),
        (257, 4, 1, height),
        (258, 3, bitsPerSampleArr.length, bpsOffset),
        (259, 3, 1, 1),
        (262, 3, 1, 2),
        (273, 4, 1, stripOffset),
        (277, 3, 1, samplesPerPixel),
        (278, 4, 1, height),
        (279, 4, 1, stripByteCount),
        (284, 3, 1, 1),
        (339, 3, sampleFormatArr.length, sfOffset),
        (274, 3, 1, 1),
        (318, 5, 2, wpOffset),
        (319, 5, 6, pcOffset),
        (270, 2, descByteLen, descOffset)] ++
      u32le 0))

theorem rationalBytesOf_length (x : ℚ) : (rationalBytesOf x).length = 8 := rfl

theorem wpBytesOf_length (wp : Option (ℚ × ℚ)) : (wpBytesOf wp).length = 16 := by
  rcases wp with _ | ⟨wx, wy⟩ <;> rfl

theorem pcBytesOf_length (a b c : Option (ℚ × ℚ)) : (pcBytesOf a b c).length = 48 := by
  simp [pcBytesOf, rationalBytesOf_length]

theorem descBytesOf_length (d : List Nat) : (descBytesOf d).length = d.length + 1 := by
  simp [descBytesOf]

/-- Everything the TIFF encoder emits before the IFD, for the fixed worker
arguments samplesPerPixel=3, bits=[16,16,16], sampleFormat=[1,1,1]
(proof scaffolding: definitionally the prefix of `encodeTiff16leWithColorimetry`). -/
def tiffPreSeg (width height : Nat) (pixelsU16 : List Nat)
    (whitePoint : Option (ℚ × ℚ)) (primR primG primB : Option (ℚ × ℚ))
    (imageDescription : List Nat) : List Nat :=
  [0x49, 0x49] ++ u16le 42 ++
    u32le (8 + width * height * 3 * 2 + 6 + 6 + 16 + 48 + (imageDescription.length + 1)) ++
    bytesOfU16 pixelsU16 ++ bytesOfU16 [16, 16, 16] ++ bytesOfU16 [1, 1, 1] ++
    wpBytesOf whitePoint ++ pcBytesOf primR primG primB ++ descBytesOf imageDescription

/-- The (tag, type, count, value) tuples of the 15 IFD entries the encoder
writes, in source order, for the fixed worker arguments
(proof scaffolding: definitionally the entry list of `encodeTiff16leWithColorimetry`). -/
def tiffIfdEntryList (width height descLen : Nat) : List (Nat × Nat × Nat × Nat) :=
  [(256, 4, 1, width),
   (257, 4, 1, height),
   (258, 3, 3, 8 + width * height * 3 * 2),
   (259, 3, 1, 1),
   (262, 3, 1, 2),
   (273, 4, 1, 8),
   (277, 3, 1, 3),
   (278, 4, 1, height),
   (279, 4, 1, width * height * 3 * 2),
   (284, 3, 1, 1),
   (339, 3, 3, 8 + width * height * 3 * 2 + 6),
   (274, 3, 1, 1),
   (318, 5, 2, 8 + width * height * 3 * 2 + 6 + 6),
   (319, 5, 6, 8 + width * height * 3 * 2 + 6 + 6 + 16),
   (270, 2, descLen + 1, 8 + width * height * 3 * 2 + 6 + 6 + 16 + 48)]

theorem encodeTiff_split (width height : Nat) (pixelsU16 : List Nat)
    (wp pr pg pb : Option (ℚ × ℚ)) (desc : List Nat) :
    encodeTiff16leWithColorimetry width height 3 [16, 16, 16] [1, 1, 1] pixelsU16
        wp pr pg pb desc =
      tiffPreSeg width height pixelsU16 wp pr pg pb desc ++
        (u16le 15 ++
          (entriesBytes (tiffIfdEntryList width height desc.length) ++ u32le 0)) := rfl

theorem entryBlock_length (e : Nat × Nat × Nat × Nat) : (entryBlock e).length = 12 := rfl

theorem entriesBytes_length (es : List (Nat × Nat × Nat × Nat)) :
    (entriesBytes es).length = 12 * es.length := by
  induction es with
  | nil => rfl
  | cons e t ih => simp [entriesBytes, entryBlock, ifdEntry, u16le, u32le, ih]; omega

theorem readU16le_skip2 (v : Nat) (R : List Nat) (k : Nat) :
    readU16le (u16le v ++ R) (2 + k) = readU16le R k := by
  rw [readU16le_append_right _ _ _ (by rw [u16le_length]; omega), u16le_length]
  congr 1
  omega

theorem readU32le_skip2 (v : Nat) (R : List Nat) (k : Nat) :
    readU32le (u16le v ++ R) (2 + k) = readU32le R k := by
  rw [readU32le_append_right _ _ _ (by rw [u16le_length]; omega), u16le_length]
  congr 1
  omega

theorem readU16le_entriesBytes_tag (es : List (Nat × Nat × Nat × Nat)) (R : List Nat) :
    ∀ (i : Nat) (h : i < es.length),
      readU16le (entriesBytes es ++ R) (12 * i) = (es.get ⟨i, h⟩).1 % 65536 := by
  induction es with
  | nil => intro i h; exact absurd h (by simp)
  | cons e t ih =>
    intro i h
    cases i with
    | zero =>
      simp [entriesBytes, entryBlock, ifdEntry, u16le, u32le, readU16le, byteAt,
        List.append_assoc]
      omega
    | succ j =>
      rw [show entriesBytes (e :: t) = entryBlock e ++ entriesBytes t from rfl,
        List.append_assoc,
        readU16le_append_right _ _ _ (by rw [entryBlock_length]; omega),
        entryBlock_length,
        show 12 * (j + 1) - 12 = 12 * j from by omega]
      exact ih j (by simpa using h)

theorem readU32le_entriesBytes_val (es : List (Nat × Nat × Nat × Nat)) (R : List Nat) :
    ∀ (i : Nat) (h : i < es.length),
      readU32le (entriesBytes es ++ R) (12 * i + 8) = (es.get ⟨i, h⟩).2.2.2 % 4294967296 := by
  induction es with
  | nil => intro i h; exact absurd h (by simp)
  | cons e t ih =>
    intro i h
    cases i with
    | zero =>
      simp [entriesBytes, entryBlock, ifdEntry, u16le, u32le, readU32le, byteAt,
        List.append_assoc]
      omega
    | succ j =>
      rw [show entriesBytes (e :: t) = entryBlock e ++ entriesBytes t from rfl,
        List.append_assoc,
        readU32le_append_right _ _ _ (by rw [entryBlock_length]; omega),
        entryBlock_length,
        show 12 * (j + 1) + 8 - 12 = 12 * j + 8 from by omega]
      exact ih j (by simpa using h)

theorem tiffPreSeg_length (width height : Nat) (pixelsU16 : List Nat)
    (wp pr pg pb : Option (ℚ × ℚ)) (desc : List Nat)
    (hpix : pixelsU16.length = width * height * 3) :
    (tiffPreSeg width height pixelsU16 wp pr pg pb desc).length =
      85 + width * height * 6 + desc.length := by
  simp [tiffPreSeg, bytesOfU16_length, wpBytesOf_length, pcBytesOf_length,
    descBytesOf_length, u16le, u32le, hpix]
  ring

/-- C1 (amended): for every width, height, pixel array of matching length,
colorimetry and description, the TIFF output of `encodeTiff16leWithColorimetry`
contains exactly one IFD (at the offset stored in the header) with exactly 15
entries, whose tags appear in the fixed order 256, 257, 258, 259, 262, 273,
277, 278, 279, 284, 339, 274, 318, 319, 270 — ascending through
PlanarConfiguration(284) but then SampleFormat(339) precedes Orientation(274)
and ImageDescription(270) comes last, so the order is NOT ascending —
with Compression = 1, PhotometricInterpretation = 2, PlanarConfiguration = 1,
and a terminating 4-byte next-IFD offset equal to 0. -/
theorem tiff_ifd_structure (width height : Nat) (pixelsU16 : List Nat)
    (wp pr pg pb : Option (ℚ × ℚ)) (desc : List Nat)
    (hpix : pixelsU16.length = width * height * 3) :
    readU32le (encodeTiff16leWithColorimetry width height 3 [16, 16, 16] [1, 1, 1]
        pixelsU16 wp pr pg pb desc) 4 =
      (85 + width * height * 6 + desc.length) % 4294967296 ∧
    readU16le (encodeTiff16leWithColorimetry width height 3 [16, 16, 16] [1, 1, 1]
        pixelsU16 wp pr pg pb desc) (85 + width * height * 6 + desc.length) = 15 ∧
    (∀ i, i < 15 →
      readU16le (encodeTiff16leWithColorimetry width height 3 [16, 16, 16] [1, 1, 1]
          pixelsU16 wp pr pg pb desc)
          (85 + width * height * 6 + desc.length + (2 + 12 * i)) =
        [256, 257, 258, 259, 262, 273, 277, 278, 279, 284, 339, 274, 318, 319,
          270].getD i 0) ∧
    readU32le (encodeTiff16leWithColorimetry width height 3 [16, 16, 16] [1, 1, 1]
        pixelsU16 wp pr pg pb desc)
        (85 + width * height * 6 + desc.length + (2 + (12 * 3 + 8))) = 1 ∧
    readU32le (encodeTiff16leWithColorimetry width height 3 [16, 16, 16] [1, 1, 1]
        pixelsU16 wp pr pg pb desc)
        (85 + width * height * 6 + desc.length + (2 + (12 * 4 + 8))) = 2 ∧
    readU32le (encodeTiff16leWithColorimetry width height 3 [16, 16, 16] [1, 1, 1]
        pixelsU16 wp pr pg pb desc)
        (85 + width * height * 6 + desc.length + (2 + (12 * 9 + 8))) = 1 ∧
    readU32le (encodeTiff16leWithColorimetry width height 3 [16, 16, 16] [1, 1, 1]
        pixelsU16 wp pr pg pb desc)
        (85 + width * height * 6 + desc.length + (2 + 12 * 15)) = 0 := by
  have hlen := tiffPreSeg_length width height pixelsU16 wp pr pg pb desc hpix
  have hes : (tiffIfdEntryList width height desc.length).length = 15 := rfl
  refine ⟨?_, ?_, ?_, ?_, ?_, ?_, ?_⟩
  · simp [encodeTiff16leWithColorimetry, u16le, u32le, readU32le, byteAt]
    omega
  · rw [encodeTiff_split, readU16le_append_right _ _ _ (by rw [hlen]), hlen,
      Nat.sub_self]
    simp [readU16le, byteAt, u16le]
  · intro i hi
    rw [encodeTiff_split, readU16le_append_right _ _ _ (by rw [hlen]; omega), hlen,
      Nat.add_sub_cancel_left, readU16le_skip2,
      readU16le_entriesBytes_tag _ _ i (by rw [hes]; omega)]
    interval_cases i <;> rfl
  · rw [encodeTiff_split, readU32le_append_right _ _ _ (by rw [hlen]; omega), hlen,
      Nat.add_sub_cancel_left, readU32le_skip2,
      readU32le_entriesBytes_val _ _ 3 (by rw [hes]; omega)]
    rfl
  · rw [encodeTiff_split, readU32le_append_right _ _ _ (by rw [hlen]; omega), hlen,
      Nat.add_sub_cancel_left, readU32le_skip2,
      readU32le_entriesBytes_val _ _ 4 (by rw [hes]; omega)]
    rfl
  · rw [encodeTiff_split, readU32le_append_right _ _ _ (by rw [hlen]; omega), hlen,
      Nat.add_sub_cancel_left, readU32le_skip2,
      readU32le_entriesBytes_val _ _ 9 (by rw [hes]; omega)]
    rfl
  · rw [encodeTiff_split, readU32le_append_right _ _ _ (by rw [hlen]; omega), hlen,
      Nat.add_sub_cancel_left, readU32le_skip2,
      readU32le_append_right _ _ _ (by rw [entriesBytes_length, hes]),
      entriesBytes_length, hes]
    rfl

/-- C1 witness: the amended IFD-structure theorem applied at width 1, height 1,
pixels [0,0,0], no colorimetry, empty description. -/
theorem tiff_ifd_structure_witness :
    ([0, 0, 0] : List Nat).length = 1 * 1 * 3 ∧
    readU16le (encodeTiff16leWithColorimetry 1 1 3 [16, 16, 16] [1, 1, 1]
        [0, 0, 0] none none none none []) (85 + 1 * 1 * 6 + ([] : List Nat).length) = 15 :=
  ⟨by decide, (tiff_ifd_structure 1 1 [0, 0, 0] none none none none [] (by decide)).2.1⟩

/-- C1 counterexample: at width 1, height 1, pixels [0,0,0], the 15 IFD entry
tags of the produced TIFF are NOT in ascending order (SampleFormat 339 precedes
Orientation 274, and ImageDescription 270 comes last). -/
theorem tiff_ifd_tags_not_ascending :
    ¬ List.Sorted (· < ·) ((List.range 15).map (fun i =>
      readU16le (encodeTiff16leWithColorimetry 1 1 3 [16, 16, 16] [1, 1, 1]
        [0, 0, 0] none none none none []) (91 + (2 + 12 * i)))) := by
  decide

/-- C2: for width 2, height 1 and samples [0,0,0,65535,65535,65535], the TIFF
output starts with the four bytes 49 49 2A 00, bytes 4-7 hold the little-endian
first-IFD offset (97 + description length, where the IFD indeed begins), and
bytes 8-19 are exactly the six samples as little-endian uint16 values —
for every colorimetry and description. -/
theorem tiff_byte_exactness_2x1 (wp pr pg pb : Option (ℚ × ℚ)) (desc : List Nat) :
    (encodeTiff16leWithColorimetry 2 1 3 [16, 16, 16] [1, 1, 1]
        [0, 0, 0, 65535, 65535, 65535] wp pr pg pb desc).take 4 =
      [0x49, 0x49, 0x2A, 0x00] ∧
    readU32le (encodeTiff16leWithColorimetry 2 1 3 [16, 16, 16] [1, 1, 1]
        [0, 0, 0, 65535, 65535, 65535] wp pr pg pb desc) 4 =
      (97 + desc.length) % 4294967296 ∧
    ((encodeTiff16leWithColorimetry 2 1 3 [16, 16, 16] [1, 1, 1]
        [0, 0, 0, 65535, 65535, 65535] wp pr pg pb desc).drop 8).take 12 =
      [0, 0, 0, 0, 0, 0, 255, 255, 255, 255, 255, 255] := by
  refine ⟨?_, ?_, ?_⟩ <;>
      simp [encodeTiff16leWithColorimetry, u16le, u32le, bytesOfU16, readU32le, byteAt]
  omega

/-! ## Transfer-function codec
(src/raw-worker.js lines 99-157, 248-289).

The double-precision arithmetic of the source is idealized as exact real
arithmetic; `Math.pow`, `Math.log2` and `Math.log` become `Real.rpow`,
`Real.logb 2` and `Real.log`. -/

/-- `Math.round` on a real (round half toward positive infinity). -/
noncomputable def jsRound (x : ℝ) : ℤ := ⌊x + 1 / 2⌋

/-- The clamp used by the LUT builder and both log encoders:
`if (y < 0) y = 0; else if (y > 1) y = 1;`. -/
noncomputable def clamp01 (y : ℝ) : ℝ := if y < 0 then 0 else if y > 1 then 1 else y

/-- Clamp, scale to 16 bits, `Math.round`, and store into a `Uint16Array`
slot (which wraps mod 2^16): the shared tail of the LUT builder and the
ACEScct / LogC4 encoders. -/
noncomputable def quantU16 (y : ℝ) : Nat := (jsRound (clamp01 y * 65535)).toNat % 65536

/-- The linear value the Rec.709 decode LUT computes before clamping:
`e = v/65535`; `e/4.5` below the 0.081 break, else `((e+0.099)/1.099)^(1/0.45)`. -/
noncomputable def bt709Linear (v : Nat) : ℝ :=
  let e : ℝ := v / 65535
  if e ≤ 0.081 then e / 4.5 else ((e + 0.099) / 1.099) ^ ((1 : ℝ) / 0.45)

/-- Entry `v` of the LUT built by `initBT709DecodeLUT`. -/
noncomputable def initBT709DecodeLUT (v : Nat) : Nat := quantU16 (bt709Linear v)

theorem clamp01_eq (y : ℝ) : clamp01 y = min 1 (max 0 y) := by
  unfold clamp01
  rcases lt_or_le y 0 with h | h
  · rw [if_pos h, max_eq_left h.le, min_eq_right zero_le_one]
  · rw [if_neg (not_lt.mpr h), max_eq_right h]
    rcases lt_or_le 1 y with h2 | h2
    · rw [if_pos h2, min_eq_left h2.le]
    · rw [if_neg (not_lt.mpr h2), min_eq_right h2]

theorem clamp01_nonneg (y : ℝ) : 0 ≤ clamp01 y := by
  unfold clamp01; split_ifs with h1 h2 <;> linarith

theorem clamp01_le_one (y : ℝ) : clamp01 y ≤ 1 := by
  unfold clamp01; split_ifs with h1 h2 <;> linarith

theorem jsRound_clamp_nonneg (y : ℝ) : 0 ≤ jsRound (clamp01 y * 65535) := by
  have h := clamp01_nonneg y
  have : (0 : ℝ) ≤ clamp01 y * 65535 + 1 / 2 := by nlinarith
  exact Int.le_floor.mpr (by exact_mod_cast this)

theorem jsRound_clamp_le (y : ℝ) : jsRound (clamp01 y * 65535) ≤ 65535 := by
  have h := clamp01_le_one y
  have hlt : clamp01 y * 65535 + 1 / 2 < (65536 : ℝ) := by nlinarith
  unfold jsRound
  have := Int.floor_lt.mpr (by exact_mod_cast hlt : clamp01 y * 65535 + 1 / 2 < ((65536 : ℤ) : ℝ))
  omega

/-- The `Uint16Array` store never actually wraps: the quantized value is the
rounded clamp itself, as an integer in [0, 65535]. -/
theorem quantU16_cast (y : ℝ) : (quantU16 y : ℤ) = jsRound (clamp01 y * 65535) := by
  have h0 := jsRound_clamp_nonneg y
  have h1 := jsRound_clamp_le y
  unfold quantU16
  rw [Nat.mod_eq_of_lt (by omega : (jsRound (clamp01 y * 65535)).toNat < 65536)]
  exact Int.toNat_of_nonneg h0

theorem quantU16_le (y : ℝ) : quantU16 y ≤ 65535 := by
  unfold quantU16
  omega

/-- C4: the decode LUT maps every index v in [0, 65535] to
round(clamp(l, 0, 1) * 65535) where l is `e/4.5` for e = v/65535 ≤ 0.081 and
`((e+0.099)/1.099)^(1/0.45)` otherwise; in particular index 0 maps to 0 and
index 65535 maps to 65535. -/
theorem bt709_decode_lut_formula :
    (∀ v : Fin 65536,
      (initBT709DecodeLUT v.1 : ℤ) = jsRound (min 1 (max 0 (bt709Linear v.1)) * 65535)) ∧
    initBT709DecodeLUT 0 = 0 ∧ initBT709DecodeLUT 65535 = 65535 := by
  refine ⟨fun v => by rw [initBT709DecodeLUT, quantU16_cast, clamp01_eq], ?_, ?_⟩
  · have hlin : bt709Linear 0 = 0 := by
      unfold bt709Linear
      norm_num
    have hc : clamp01 (0 : ℝ) = 0 := by unfold clamp01; norm_num
    have hr : jsRound ((0 : ℝ) * 65535) = 0 := by
      unfold jsRound
      rw [Int.floor_eq_iff]
      constructor <;> norm_num
    rw [initBT709DecodeLUT]
    unfold quantU16
    rw [hlin, hc, hr]
    rfl
  · have he : ((65535 : Nat) : ℝ) / 65535 = 1 := by norm_num
    have hlin : bt709Linear 65535 = 1 := by
      unfold bt709Linear
      rw [he, if_neg (by norm_num)]
      have harg : ((1 : ℝ) + 0.099) / 1.099 = 1 := by norm_num
      rw [harg, Real.one_rpow]
    have hc : clamp01 (1 : ℝ) = 1 := by unfold clamp01; norm_num
    have hr : jsRound ((1 : ℝ) * 65535) = 65535 := by
      unfold jsRound
      rw [Int.floor_eq_iff]
      constructor <;> norm_num
    rw [initBT709DecodeLUT]
    unfold quantU16
    rw [hlin, hc, hr]
    rfl

/-- The ACEScct per-sample encoder (`encodeCctToU16` inside
`apply709ToACEScctInPlace`): linear segment below 2^-7, log segment above,
clamp to [0,1], round to 16 bits. -/
noncomputable def encodeCctToU16 (x : ℝ) : Nat :=
  quantU16 (if x ≤ 0.0078125 then 10.5402377416545 * x + 0.0729055341958355
    else (Real.logb 2 (max x 1e-10) + 9.72) / 17.52)

/-- C5: for every real input the ACEScct encoder computes the two-piece
formula, clamps it to [0,1] and quantizes with round(y*65535); it is total
(never rejects any input) and its result always lies in [0, 65535]. -/
theorem acescct_encoder_formula_and_range :
    ∀ x : ℝ,
      (encodeCctToU16 x : ℤ) =
        jsRound (min 1 (max 0 (if x ≤ 0.0078125 then
          10.5402377416545 * x + 0.0729055341958355
          else (Real.logb 2 (max x 1e-10) + 9.72) / 17.52)) * 65535) ∧
      encodeCctToU16 x ≤ 65535 := by
  intro x
  refine ⟨?_, quantU16_le _⟩
  rw [encodeCctToU16, quantU16_cast, clamp01_eq]

/-! ## Color-space matrix builder
(src/raw-worker.js lines 159-258): 3x3 matrices as flat 9-element lists,
exactly as in the source, with double arithmetic idealized as ℝ. -/

noncomputable def mat3MultiplyVec3 (m v : List ℝ) : List ℝ :=
  [m.getD 0 0 * v.getD 0 0 + m.getD 1 0 * v.getD 1 0 + m.getD 2 0 * v.getD 2 0,
   m.getD 3 0 * v.getD 0 0 + m.getD 4 0 * v.getD 1 0 + m.getD 5 0 * v.getD 2 0,
   m.getD 6 0 * v.getD 0 0 + m.getD 7 0 * v.getD 1 0 + m.getD 8 0 * v.getD 2 0]

noncomputable def mat3Multiply (a b : List ℝ) : List ℝ :=
  [a.getD 0 0 * b.getD 0 0 + a.getD 1 0 * b.getD 3 0 + a.getD 2 0 * b.getD 6 0,
   a.getD 0 0 * b.getD 1 0 + a.getD 1 0 * b.getD 4 0 + a.getD 2 0 * b.getD 7 0,
   a.getD 0 0 * b.getD 2 0 + a.getD 1 0 * b.getD 5 0 + a.getD 2 0 * b.getD 8 0,
   a.getD 3 0 * b.getD 0 0 + a.getD 4 0 * b.getD 3 0 + a.getD 5 0 * b.getD 6 0,
   a.getD 3 0 * b.getD 1 0 + a.getD 4 0 * b.getD 4 0 + a.getD 5 0 * b.getD 7 0,
   a.getD 3 0 * b.getD 2 0 + a.getD 4 0 * b.getD 5 0 + a.getD 5 0 * b.getD 8 0,
   a.getD 6 0 * b.getD 0 0 + a.getD 7 0 * b.getD 3 0 + a.getD 8 0 * b.getD 6 0,
   a.getD 6 0 * b.getD 1 0 + a.getD 7 0 * b.getD 4 0 + a.getD 8 0 * b.getD 7 0,
   a.getD 6 0 * b.getD 2 0 + a.getD 7 0 * b.getD 5 0 + a.getD 8 0 * b.getD 8 0]

/-- Closed-form cofactor/adjugate 3x3 inverse, exactly as in the source. -/
noncomputable def mat3Inverse (m : List ℝ) : List ℝ :=
  let a := m.getD 0 0; let b := m.getD 1 0; let c := m.getD 2 0
  let d := m.getD 3 0; let e := m.getD 4 0; let f := m.getD 5 0
  let g := m.getD 6 0; let h := m.getD 7 0; let i := m.getD 8 0
  let A := e * i - f * h
  let B := -(d * i - f * g)
  let C := d * h - e * g
  let D := -(b * i - c * h)
  let E := a * i - c * g
  let F := -(a * h - b * g)
  let G := b * f - c * e
  let H := -(a * f - c * d)
  let I := a * e - b * d
  let det := a * A + b * B + c * C
  let invDet := 1 / det
  [A * invDet, D * invDet, G * invDet, B * invDet, E * invDet, H * invDet,
   C * invDet, F * invDet, I * invDet]

noncomputable def xyToXYZ (x y : ℝ) : List ℝ := [x / y, 1, (1 - x - y) / y]

/-- `primariesToRgbToXyz`: the primaries object is passed as its three
chromaticity pairs. -/
noncomputable def primariesToRgbToXyz (rP gP bP wp : ℝ × ℝ) : List ℝ :=
  let Pr := xyToXYZ rP.1 rP.2
  let Pg := xyToXYZ gP.1 gP.2
  let Pb := xyToXYZ bP.1 bP.2
  let P := [Pr.getD 0 0, Pg.getD 0 0, Pb.getD 0 0,
            Pr.getD 1 0, Pg.getD 1 0, Pb.getD 1 0,
            Pr.getD 2 0, Pg.getD 2 0, Pb.getD 2 0]
  let Pinv := mat3Inverse P
  let W := xyToXYZ wp.1 wp.2
  let S := mat3MultiplyVec3 Pinv W
  [P.getD 0 0 * S.getD 0 0, P.getD 1 0 * S.getD 1 0, P.getD 2 0 * S.getD 2 0,
   P.getD 3 0 * S.getD 0 0, P.getD 4 0 * S.getD 1 0, P.getD 5 0 * S.getD 2 0,
   P.getD 6 0 * S.getD 0 0, P.getD 7 0 * S.getD 1 0, P.getD 8 0 * S.getD 2 0]

noncomputable def bradfordAdaptMatrix (srcWP dstWP : ℝ × ℝ) : List ℝ :=
  let MB : List ℝ :=
    [0.8951, 0.2664, -0.1614, -0.7502, 1.7135, 0.0367, 0.0389, -0.0685, 1.0296]
  let MBinv := mat3Inverse MB
  let XYZs := xyToXYZ srcWP.1 srcWP.2
  let XYZd := xyToXYZ dstWP.1 dstWP.2
  let LMSs := mat3MultiplyVec3 MB XYZs
  let LMSd := mat3MultiplyVec3 MB XYZd
  let D : List ℝ := [LMSd.getD 0 0 / LMSs.getD 0 0, 0, 0, 0,
                     LMSd.getD 1 0 / LMSs.getD 1 0, 0, 0, 0,
                     LMSd.getD 2 0 / LMSs.getD 2 0]
  mat3Multiply MBinv (mat3Multiply D MB)

/-- The cached AP0 -> AWG4 matrix (`ensureAp0ToAwg4Matrix`): AP0 primaries at
D60, Bradford adaptation D60 -> D65, inverse of AWG4 at D65. -/
noncomputable def ensureAp0ToAwg4Matrix : List ℝ :=
  let D60 : ℝ × ℝ := (0.32168, 0.33767)
  let D65 : ℝ × ℝ := (0.3127, 0.3290)
  let M_ap0_rgb2xyz_d60 :=
    primariesToRgbToXyz (0.7347, 0.2653) (0.0000, 1.0000) (0.0001, -0.0770) D60
  let adapt_d60_to_d65 := bradfordAdaptMatrix D60 D65
  let M_awg4_rgb2xyz_d65 :=
    primariesToRgbToXyz (0.7347, 0.2653) (0.1424, 0.8576) (0.0991, -0.0308) D65
  let M_xyz_to_awg4 := mat3Inverse M_awg4_rgb2xyz_d65
  mat3Multiply M_xyz_to_awg4 (mat3Multiply adapt_d60_to_d65 M_ap0_rgb2xyz_d60)

/-- The first row of the AP0 -> AWG4 matrix sums exactly to 1 (in exact
arithmetic the composite maps the white (1,1,1) to (1,1,1)). -/
theorem ensureAp0ToAwg4Matrix_row0_sum :
    ensureAp0ToAwg4Matrix.getD 0 0 + ensureAp0ToAwg4Matrix.getD 1 0 +
      ensureAp0ToAwg4Matrix.getD 2 0 = 1 := by
  norm_num [ensureAp0ToAwg4Matrix, primariesToRgbToXyz, bradfordAdaptMatrix,
    mat3Multiply, mat3Inverse, mat3MultiplyVec3, xyToXYZ, List.getD]

/-! ## LogC4 constants and encoder (`ensureLogC4Consts`, `encodeLogC4ToU16`) -/

noncomputable def logc4B : ℝ := (1023 - 95) / 1023

noncomputable def logc4C : ℝ := 95 / 1023

noncomputable def logc4A : ℝ := ((2 : ℝ) ^ (18 : ℕ) - 16) / 117.45

noncomputable def logc4S : ℝ :=
  (7 * Real.log 2 * (2 : ℝ) ^ ((7 : ℝ) - 14 * (logc4C / logc4B))) / (logc4A * logc4B)

noncomputable def logc4T : ℝ :=
  ((2 : ℝ) ^ (14 * (-logc4C / logc4B) + 6) - 64) / logc4A

/-- LogC4 per-sample encoder: logarithmic segment at or above the toe cut `t`,
linear segment below, clamp to [0,1], round to 16 bits. -/
noncomputable def encodeLogC4ToU16 (E a b c s t : ℝ) : Nat :=
  quantU16 (if E ≥ t then ((Real.logb 2 (a * E + 64) - 6) / 14) * b + c
    else (E - t) / s)

/-! ## Pixel transform engine
(src/raw-worker.js lines 118-123, 126-157, 261-289): in-place loops over
interleaved RGB triplets, modelled as structural recursion three samples at a
time.  A trailing fragment of fewer than three samples (impossible for the
worker, which always passes width*height*3 samples) is left unchanged. -/

/-- `applyBT709DecodeInPlace`: every sample through the decode LUT. -/
noncomputable def applyBT709DecodeInPlace (u16 : List Nat) : List Nat :=
  u16.map (fun v => initBT709DecodeLUT v)

/-- `apply709ToACEScctInPlace`: LUT decode, AP0 -> AP1 matrix (the inline source
constants), ACEScct encode, per RGB triplet. -/
noncomputable def apply709ToACEScctInPlace : List Nat → List Nat
  | r :: g :: bch :: rest =>
    encodeCctToU16 (1.4514393161 * ((initBT709DecodeLUT r : ℝ) / 65535)
        + -0.2365107469 * ((initBT709DecodeLUT g : ℝ) / 65535)
        + -0.2149285693 * ((initBT709DecodeLUT bch : ℝ) / 65535)) ::
    encodeCctToU16 (-0.0765537733 * ((initBT709DecodeLUT r : ℝ) / 65535)
        + 1.1762296998 * ((initBT709DecodeLUT g : ℝ) / 65535)
        + -0.0996759265 * ((initBT709DecodeLUT bch : ℝ) / 65535)) ::
    encodeCctToU16 (0.0083161484 * ((initBT709DecodeLUT r : ℝ) / 65535)
        + -0.0060324498 * ((initBT709DecodeLUT g : ℝ) / 65535)
        + 0.9977163014 * ((initBT709DecodeLUT bch : ℝ) / 65535)) ::
    apply709ToACEScctInPlace rest
  | l => l

/-- `apply709ToAWG4LogC4InPlace`: LUT decode (times `inv65535 = 1/65535`),
AP0 -> AWG4 matrix, LogC4 encode, per RGB triplet. -/
noncomputable def apply709ToAWG4LogC4InPlace : List Nat → List Nat
  | r :: g :: bch :: rest =>
    encodeLogC4ToU16
      (ensureAp0ToAwg4Matrix.getD 0 0 * ((initBT709DecodeLUT r : ℝ) * (1 / 65535))
        + ensureAp0ToAwg4Matrix.getD 1 0 * ((initBT709DecodeLUT g : ℝ) * (1 / 65535))
        + ensureAp0ToAwg4Matrix.getD 2 0 * ((initBT709DecodeLUT bch : ℝ) * (1 / 65535)))
      logc4A logc4B logc4C logc4S logc4T ::
    encodeLogC4ToU16
      (ensureAp0ToAwg4Matrix.getD 3 0 * ((initBT709DecodeLUT r : ℝ) * (1 / 65535))
        + ensureAp0ToAwg4Matrix.getD 4 0 * ((initBT709DecodeLUT g : ℝ) * (1 / 65535))
        + ensureAp0ToAwg4Matrix.getD 5 0 * ((initBT709DecodeLUT bch : ℝ) * (1 / 65535)))
      logc4A logc4B logc4C logc4S logc4T ::
    encodeLogC4ToU16
      (ensureAp0ToAwg4Matrix.getD 6 0 * ((initBT709DecodeLUT r : ℝ) * (1 / 65535))
        + ensureAp0ToAwg4Matrix.getD 7 0 * ((initBT709DecodeLUT g : ℝ) * (1 / 65535))
        + ensureAp0ToAwg4Matrix.getD 8 0 * ((initBT709DecodeLUT bch : ℝ) * (1 / 65535)))
      logc4A logc4B logc4C logc4S logc4T ::
    apply709ToAWG4LogC4InPlace rest
  | l => l

/-- The decode LUT at the mid-gray input 0x4000 lies between 2099 and 6609
(the exact real value is about 5123.6; these crude rpow bounds come from
x^3 ≤ x^(1/0.45) ≤ x^2 for x ∈ (0, 1]). -/
theorem lut16384_bounds :
    2099 ≤ initBT709DecodeLUT 16384 ∧ initBT709DecodeLUT 16384 ≤ 6609 := by
  obtain ⟨x, hxdef⟩ : ∃ x : ℝ, ((16384 : ℝ) / 65535 + 0.099) / 1.099 = x := ⟨_, rfl⟩
  have hldef : bt709Linear 16384 = x ^ ((20 : ℝ) / 9) := by
    simp only [bt709Linear]
    rw [if_neg (by norm_num), ← hxdef]
    congr 1
    norm_num
  have hx0 : (0 : ℝ) < x := by rw [← hxdef]; norm_num
  have hx1 : x ≤ 1 := by rw [← hxdef]; norm_num
  have hlo : x ^ (3 : ℕ) ≤ bt709Linear 16384 := by
    rw [hldef]
    calc x ^ (3 : ℕ) = x ^ ((3 : ℕ) : ℝ) := (Real.rpow_natCast x 3).symm
      _ = x ^ (3 : ℝ) := by norm_num
      _ ≤ x ^ ((20 : ℝ) / 9) :=
        Real.rpow_le_rpow_of_exponent_ge hx0 hx1 (by norm_num)
  have hhi : bt709Linear 16384 ≤ x ^ (2 : ℕ) := by
    rw [hldef]
    calc x ^ ((20 : ℝ) / 9) ≤ x ^ (2 : ℝ) :=
        Real.rpow_le_rpow_of_exponent_ge hx0 hx1 (by norm_num)
      _ = x ^ ((2 : ℕ) : ℝ) := by norm_num
      _ = x ^ (2 : ℕ) := Real.rpow_natCast x 2
  have hl0 : 0 ≤ bt709Linear 16384 := le_trans (pow_pos hx0 3).le hlo
  have hl1 : bt709Linear 16384 ≤ 1 :=
    le_trans hhi (by rw [← hxdef]; norm_num)
  have hcl : clamp01 (bt709Linear 16384) = bt709Linear 16384 := by
    unfold clamp01
    rw [if_neg (not_lt.mpr hl0), if_neg (not_lt.mpr hl1)]
  have hcast : (initBT709DecodeLUT 16384 : ℤ) = ⌊bt709Linear 16384 * 65535 + 1 / 2⌋ := by
    rw [initBT709DecodeLUT, quantU16_cast, hcl]
    unfold jsRound
    rfl
  constructor
  · have hfl : (2099 : ℤ) ≤ ⌊bt709Linear 16384 * 65535 + 1 / 2⌋ := by
      apply Int.le_floor.mpr
      have hnum : (2099 : ℝ) ≤ x ^ (3 : ℕ) * 65535 + 1 / 2 := by rw [← hxdef]; norm_num
      push_cast
      nlinarith [hlo]
    omega
  · have hfl : ⌊bt709Linear 16384 * 65535 + 1 / 2⌋ < (6610 : ℤ) := by
      apply Int.floor_lt.mpr
      have hnum : x ^ (2 : ℕ) * 65535 + 1 / 2 < 6610 := by rw [← hxdef]; norm_num
      push_cast
      nlinarith [hhi]
    omega

theorem logb_two_inv32 : Real.logb 2 ((1 : ℝ) / 32) = -5 := by
  rw [show ((1 : ℝ) / 32) = (2 : ℝ) ^ ((-5 : ℝ)) from by
    rw [show ((-5 : ℝ)) = ((-5 : ℤ) : ℝ) from by norm_num, Real.rpow_intCast]
    norm_num]
  exact Real.logb_rpow (by norm_num) (by norm_num)

theorem logb_two_inv8 : Real.logb 2 ((1 : ℝ) / 8) = -3 := by
  rw [show ((1 : ℝ) / 8) = (2 : ℝ) ^ ((-3 : ℝ)) from by
    rw [show ((-3 : ℝ)) = ((-3 : ℤ) : ℝ) from by norm_num, Real.rpow_intCast]
    norm_num]
  exact Real.logb_rpow (by norm_num) (by norm_num)

/-- Lower bound for the ACEScct pipeline output on a gray triplet whose
decoded LUT value, scaled to [0,1], is u ∈ [2099/65535, 6609/65535]. -/
theorem encodeCct_mid_lower (u : ℝ) (h1 : 2099 / 65535 ≤ u) (h2 : u ≤ 6609 / 65535) :
    17656 ≤ encodeCctToU16 (1.4514393161 * u + -0.2365107469 * u + -0.2149285693 * u) := by
  obtain ⟨rr, hrr⟩ : ∃ rr : ℝ,
      1.4514393161 * u + -0.2365107469 * u + -0.2149285693 * u = rr := ⟨_, rfl⟩
  have hrr_eq : rr = 0.9999999999 * u := by rw [← hrr]; ring
  have hrr_lo : (1 : ℝ) / 32 ≤ rr := by rw [hrr_eq]; nlinarith
  have hrr_hi : rr ≤ (1 : ℝ) / 8 := by rw [hrr_eq]; nlinarith
  rw [hrr]
  unfold encodeCctToU16
  rw [if_neg (not_le.mpr (by linarith : (0.0078125 : ℝ) < rr)),
    max_eq_left (by linarith : (1e-10 : ℝ) ≤ rr)]
  have hlb_lo : (-5 : ℝ) ≤ Real.logb 2 rr := by
    rw [← logb_two_inv32]
    exact Real.logb_le_logb_of_le (by norm_num) (by norm_num) hrr_lo
  obtain ⟨y, hy⟩ : ∃ y : ℝ, (Real.logb 2 rr + 9.72) / 17.52 = y := ⟨_, rfl⟩
  have hlb_hi : Real.logb 2 rr ≤ -3 := by
    rw [← logb_two_inv8]
    exact Real.logb_le_logb_of_le (by norm_num) (by linarith) hrr_hi
  have hy_lo : (59 : ℝ) / 219 ≤ y := by
    rw [← hy, le_div_iff₀ (by norm_num : (0 : ℝ) < 17.52)]
    linarith
  have hy_hi : y ≤ (28 : ℝ) / 73 := by
    rw [← hy, div_le_iff₀ (by norm_num : (0 : ℝ) < 17.52)]
    linarith
  have hy0 : (0 : ℝ) ≤ y := le_trans (by norm_num) hy_lo
  have hy1 : y ≤ 1 := le_trans hy_hi (by norm_num)
  rw [hy]
  have hcl : clamp01 y = y := by
    unfold clamp01
    rw [if_neg (not_lt.mpr hy0), if_neg (not_lt.mpr hy1)]
  have hcast := quantU16_cast y
  rw [hcl] at hcast
  have hfl : (17656 : ℤ) ≤ jsRound (y * 65535) := by
    unfold jsRound
    apply Int.le_floor.mpr
    push_cast
    nlinarith [hy_lo]
  omega

/-- Bounds for the LogC4 pipeline output on a gray triplet whose decoded LUT
value, scaled to [0,1], is u ∈ [2099/65535, 6609/65535]. -/
theorem encodeLogC4_mid_bounds (u : ℝ) (h1 : 2099 / 65535 ≤ u) (h2 : u ≤ 6609 / 65535) :
    10332 ≤ encodeLogC4ToU16 u logc4A logc4B logc4C logc4S logc4T ∧
    encodeLogC4ToU16 u logc4A logc4B logc4C logc4S logc4T ≤ 16705 := by
  have ha : logc4A = 1747520 / 783 := by unfold logc4A; norm_num
  have hb : logc4B = 928 / 1023 := by unfold logc4B; norm_num
  have hc : logc4C = 95 / 1023 := by unfold logc4C; norm_num
  have hT : logc4T < 0 := by
    unfold logc4T
    apply div_neg_of_neg_of_pos
    · have hexp : 14 * (-logc4C / logc4B) + 6 < 6 := by rw [hb, hc]; norm_num
      have h2pow : (2 : ℝ) ^ (14 * (-logc4C / logc4B) + 6) < (2 : ℝ) ^ ((6 : ℝ)) :=
        (Real.rpow_lt_rpow_left_iff (by norm_num)).mpr hexp
      have h64 : (2 : ℝ) ^ ((6 : ℝ)) = 64 := by
        rw [show ((6 : ℝ)) = ((6 : ℕ) : ℝ) from by norm_num, Real.rpow_natCast]
        norm_num
      linarith
    · rw [ha]; norm_num
  have hu0 : (0 : ℝ) < u := lt_of_lt_of_le (by norm_num) h1
  unfold encodeLogC4ToU16
  rw [if_pos ((hT.trans hu0).le : logc4T ≤ u)]
  obtain ⟨w, hw⟩ : ∃ w : ℝ, logc4A * u + 64 = w := ⟨_, rfl⟩
  have hw_lo : (128 : ℝ) < w := by rw [← hw, ha]; nlinarith
  have hw_hi : w ≤ 28908 / 100 := by rw [← hw, ha]; nlinarith
  have hw0 : (0 : ℝ) < w := by linarith
  rw [hw]
  have hlb_lo : (7 : ℝ) < Real.logb 2 w := by
    have h128 : Real.logb 2 (128 : ℝ) = 7 := by
      rw [show (128 : ℝ) = (2 : ℝ) ^ ((7 : ℝ)) from by
        rw [show ((7 : ℝ)) = ((7 : ℕ) : ℝ) from by norm_num, Real.rpow_natCast]
        norm_num]
      exact Real.logb_rpow (by norm_num) (by norm_num)
    rw [← h128]
    exact Real.logb_lt_logb (by norm_num) (by norm_num) hw_lo
  have hlb_hi : Real.logb 2 w < 17 / 2 := by
    rw [Real.logb_lt_iff_lt_rpow (by norm_num) hw0]
    have hP0 : (0 : ℝ) < (2 : ℝ) ^ ((17 : ℝ) / 2) := Real.rpow_pos_of_pos (by norm_num) _
    have hsq : ((2 : ℝ) ^ ((17 : ℝ) / 2)) ^ (2 : ℕ) = 131072 := by
      rw [← Real.rpow_natCast ((2 : ℝ) ^ ((17 : ℝ) / 2)) 2,
        ← Real.rpow_mul (by norm_num : (0 : ℝ) ≤ 2),
        show ((17 : ℝ) / 2 * ((2 : ℕ) : ℝ)) = ((17 : ℕ) : ℝ) from by norm_num,
        Real.rpow_natCast]
      norm_num
    apply lt_of_pow_lt_pow_left₀ 2 hP0.le
    rw [hsq]
    nlinarith [hw_hi, hw0]
  obtain ⟨y, hy⟩ : ∃ y : ℝ,
      ((Real.logb 2 w - 6) / 14) * logc4B + logc4C = y := ⟨_, rfl⟩
  have hy_lo : (1129 : ℝ) / 7161 ≤ y := by
    rw [← hy, hb, hc]
    nlinarith [hlb_lo]
  have hy_hi : y ≤ (1825 : ℝ) / 7161 := by
    rw [← hy, hb, hc]
    nlinarith [hlb_hi]
  have hy0 : (0 : ℝ) ≤ y := le_trans (by norm_num) hy_lo
  have hy1 : y ≤ 1 := le_trans hy_hi (by norm_num)
  rw [hy]
  have hcl : clamp01 y = y := by
    unfold clamp01
    rw [if_neg (not_lt.mpr hy0), if_neg (not_lt.mpr hy1)]
  have hcast := quantU16_cast y
  rw [hcl] at hcast
  constructor
  · have hfl : (10332 : ℤ) ≤ jsRound (y * 65535) := by
      unfold jsRound
      apply Int.le_floor.mpr
      push_cast
      nlinarith [hy_lo]
    omega
  · have hfl : jsRound (y * 65535) < (16706 : ℤ) := by
      unfold jsRound
      apply Int.floor_lt.mpr
      push_cast
      nlinarith [hy_hi]
    omega

/-- C8: the three pipelines (AP0 linear decode, ACEScct, ARRI LogC4), applied
to the single mid-gray pixel (0x4000, 0x4000, 0x4000), produce three pairwise
distinct output triplets.  Each pipeline is a pure function of its input, so
each output is deterministic by construction.  (Concretely: the first sample
lands in [2099, 6609] for ap0-linear, in [10332, 16705] for arri-logc4, and
at or above 17656 for acescct.) -/
theorem pipeline_distinctness_midgray :
    applyBT709DecodeInPlace [16384, 16384, 16384] ≠
        apply709ToACEScctInPlace [16384, 16384, 16384] ∧
    applyBT709DecodeInPlace [16384, 16384, 16384] ≠
        apply709ToAWG4LogC4InPlace [16384, 16384, 16384] ∧
    apply709ToACEScctInPlace [16384, 16384, 16384] ≠
        apply709ToAWG4LogC4InPlace [16384, 16384, 16384] := by
  obtain ⟨hL1, hL2⟩ := lut16384_bounds
  have hu1 : (2099 : ℝ) / 65535 ≤ (initBT709DecodeLUT 16384 : ℝ) / 65535 := by
    apply (div_le_div_iff_of_pos_right (by norm_num : (0 : ℝ) < 65535)).mpr
    exact_mod_cast hL1
  have hu2 : (initBT709DecodeLUT 16384 : ℝ) / 65535 ≤ (6609 : ℝ) / 65535 := by
    apply (div_le_div_iff_of_pos_right (by norm_num : (0 : ℝ) < 65535)).mpr
    exact_mod_cast hL2
  have hcct := encodeCct_mid_lower ((initBT709DecodeLUT 16384 : ℝ) / 65535) hu1 hu2
  obtain ⟨u, hu⟩ : ∃ u : ℝ, (initBT709DecodeLUT 16384 : ℝ) * (1 / 65535) = u := ⟨_, rfl⟩
  have hb1 : (2099 : ℝ) / 65535 ≤ u := by rw [← hu, mul_one_div]; exact hu1
  have hb2 : u ≤ (6609 : ℝ) / 65535 := by rw [← hu, mul_one_div]; exact hu2
  obtain ⟨hlog1, hlog2⟩ := encodeLogC4_mid_bounds u hb1 hb2
  have hv : ensureAp0ToAwg4Matrix.getD 0 0 * u + ensureAp0ToAwg4Matrix.getD 1 0 * u +
      ensureAp0ToAwg4Matrix.getD 2 0 * u = u := by
    calc ensureAp0ToAwg4Matrix.getD 0 0 * u + ensureAp0ToAwg4Matrix.getD 1 0 * u +
        ensureAp0ToAwg4Matrix.getD 2 0 * u
        = (ensureAp0ToAwg4Matrix.getD 0 0 + ensureAp0ToAwg4Matrix.getD 1 0 +
            ensureAp0ToAwg4Matrix.getD 2 0) * u := by ring
      _ = u := by rw [ensureAp0ToAwg4Matrix_row0_sum, one_mul]
  have hap0_head : (applyBT709DecodeInPlace [16384, 16384, 16384]).headD 0 =
      initBT709DecodeLUT 16384 := rfl
  have hcct_head : (apply709ToACEScctInPlace [16384, 16384, 16384]).headD 0 =
      encodeCctToU16 (1.4514393161 * ((initBT709DecodeLUT 16384 : ℝ) / 65535)
        + -0.2365107469 * ((initBT709DecodeLUT 16384 : ℝ) / 65535)
        + -0.2149285693 * ((initBT709DecodeLUT 16384 : ℝ) / 65535)) := rfl
  have hlog_head : (apply709ToAWG4LogC4InPlace [16384, 16384, 16384]).headD 0 =
      encodeLogC4ToU16
        (ensureAp0ToAwg4Matrix.getD 0 0 * ((initBT709DecodeLUT 16384 : ℝ) * (1 / 65535))
          + ensureAp0ToAwg4Matrix.getD 1 0 * ((initBT709DecodeLUT 16384 : ℝ) * (1 / 65535))
          + ensureAp0ToAwg4Matrix.getD 2 0 * ((initBT709DecodeLUT 16384 : ℝ) * (1 / 65535)))
        logc4A logc4B logc4C logc4S logc4T := rfl
  rw [hu] at hlog_head
  rw [hv] at hlog_head
  refine ⟨?_, ?_, ?_⟩
  · intro h
    have hh : (applyBT709DecodeInPlace [16384, 16384, 16384]).headD 0 =
        (apply709ToACEScctInPlace [16384, 16384, 16384]).headD 0 := by rw [h]
    rw [hap0_head, hcct_head] at hh
    omega
  · intro h
    have hh : (applyBT709DecodeInPlace [16384, 16384, 16384]).headD 0 =
        (apply709ToAWG4LogC4InPlace [16384, 16384, 16384]).headD 0 := by rw [h]
    rw [hap0_head, hlog_head] at hh
    omega
  · intro h
    have hh : (apply709ToACEScctInPlace [16384, 16384, 16384]).headD 0 =
        (apply709ToAWG4LogC4InPlace [16384, 16384, 16384]).headD 0 := by rw [h]
    rw [hcct_head, hlog_head] at hh
    omega

/-! ## EXR bridge (`encodeEXRFromRGB16`, src/raw-worker.js lines 39-95).

The WASM engine call is abstracted as its observable outcome: the returned
pointer, the 32-bit value it stored in the size cell, and the engine heap the
result bytes are read from.  The read-back / copy / free / throw tail of
`encodeEXRFromRGB16` (lines 81-94) is modelled as a function from that outcome
to the produced buffer or error, together with which engine-side allocations
it released. -/

structure EngineResult where
  ptr : Nat
  size : Nat
  heap : Nat → Nat

structure ExrCallOutcome where
  result : Except String (List Nat)
  freedPixels : Bool
  freedSizeCell : Bool
  freedResult : Bool

/-- Lines 81-94 of `encodeEXRFromRGB16`: read the size (`>>> 0`), copy the
engine bytes into an own buffer when `ptr && size > 0`, free the input pixel
buffer and the size cell unconditionally, free the result pointer when
non-null, and throw when no buffer was produced. -/
def encodeEXRFromRGB16Core (res : EngineResult) : ExrCallOutcome :=
  let size := res.size % 4294967296
  let out : Option (List Nat) :=
    if res.ptr ≠ 0 ∧ 0 < size then
      some ((List.range size).map (fun i => res.heap (res.ptr + i)))
    else none
  { result := match out with
      | some bytes => .ok bytes
      | none => .error "EXR encode failed"
    freedPixels := true
    freedSizeCell := true
    freedResult := res.ptr != 0 }

/-- C3: a null engine pointer or zero engine size makes `encodeEXRFromRGB16`
fail with an error (never a truncated buffer); on every exit path the
engine-side pixel buffer and size cell are freed, the result buffer is freed
whenever the pointer is non-null, and a successful result is a copy of
exactly `size` bytes starting at `ptr`. -/
theorem exr_engine_result_handling (res : EngineResult) :
    (res.ptr = 0 ∨ res.size % 4294967296 = 0 →
      (encodeEXRFromRGB16Core res).result = .error "EXR encode failed") ∧
    (encodeEXRFromRGB16Core res).freedPixels = true ∧
    (encodeEXRFromRGB16Core res).freedSizeCell = true ∧
    (res.ptr ≠ 0 → (encodeEXRFromRGB16Core res).freedResult = true) ∧
    (∀ bytes, (encodeEXRFromRGB16Core res).result = .ok bytes →
      bytes = (List.range (res.size % 4294967296)).map (fun i => res.heap (res.ptr + i))) := by
  refine ⟨?_, rfl, rfl, ?_, ?_⟩
  · intro h
    simp only [encodeEXRFromRGB16Core]
    rw [if_neg (by omega)]
  · intro h
    simp only [encodeEXRFromRGB16Core]
    simp [h]
  · intro bytes h
    simp only [encodeEXRFromRGB16Core] at h
    by_cases hc : res.ptr ≠ 0 ∧ 0 < res.size % 4294967296
    · rw [if_pos hc] at h
      exact (Except.ok.inj h).symm
    · rw [if_neg hc] at h
      exact absurd h (by simp)

/-- C3 witness: the theorem applied to the null-pointer outcome. -/
theorem exr_engine_result_handling_witness :
    (encodeEXRFromRGB16Core ⟨0, 0, fun _ => 0⟩).result = .error "EXR encode failed" :=
  (exr_engine_result_handling ⟨0, 0, fun _ => 0⟩).1 (Or.inl rfl)

/-! ## MemorySink (`grow_and_write`, src/exr test/encode_exr_dwaa_rgba_half.c
lines 21-41).

C memory is a map to `Option Nat`: `none` is an uninitialized (indeterminate)
byte.  `realloc` preserves every previously written byte and leaves the newly
acquired region uninitialized; allocation failure and a null sink pointer are
not modelled.  The doubling loop runs on 32-bit `size_t` (wasm), so the
`next < newcap` wraparound check is modelled with `% 2^32`; its
`newcap = 0` fixed point (unreachable: the starting capacity is at least
65536) is cut off for termination. -/

def SIZE_MAX : Nat := 4294967296 - 1

structure MemSink where
  data : Nat → Option Nat
  size : Nat
  capacity : Nat

theorem MemSink.size_mk (d : Nat → Option Nat) (sz c : Nat) :
    (MemSink.mk d sz c).size = sz := rfl

theorem MemSink.capacity_mk (d : Nat → Option Nat) (sz c : Nat) :
    (MemSink.mk d sz c).capacity = c := rfl

theorem MemSink.data_mk (d : Nat → Option Nat) (sz c : Nat) :
    (MemSink.mk d sz c).data = d := rfl

/-- The `while (newcap < need)` doubling loop of `grow_and_write`
(`next = newcap * 2` on 32-bit `size_t` is written inline). -/
def growCap (newcap need : Nat) : Nat :=
  if newcap < need then
    if newcap * 2 % 4294967296 < newcap then need
    else if h2 : newcap < newcap * 2 % 4294967296 then
      growCap (newcap * 2 % 4294967296) need
    else need
  else newcap
termination_by need - newcap
decreasing_by exact Nat.sub_lt_sub_left (by omega) h2

/-- `grow_and_write`: bounds-check `need` against `SIZE_MAX`, grow capacity by
doubling (minimum 65536) when needed, copy the buffer at the offset, extend
the logical size to cover `off + len`, and return the written length. -/
def grow_and_write (s : MemSink) (buf : List Nat) (off : Nat) : Int × MemSink :=
  let sz := buf.length
  let need := off + sz
  if need > SIZE_MAX then (-1, s)
  else
    let s1 := if need > s.capacity then
        { s with capacity := growCap (if s.capacity = 0 then 65536 else s.capacity) need }
      else s
    let data2 := fun i =>
      if off ≤ i ∧ i < off + sz then some (buf.getD (i - off) 0) else s1.data i
    let size2 := if s1.size < need then need else s1.size
    ((sz : Int), { s1 with data := data2, size := size2 })

theorem growCap_65536_100010 : growCap 65536 100010 = 131072 := by
  rw [growCap]
  norm_num
  rw [growCap]
  norm_num

/-- The doubling loop never returns less than its starting capacity. -/
theorem le_growCap_aux : ∀ (k newcap need : Nat), need - newcap ≤ k →
    newcap ≤ growCap newcap need := by
  intro k
  induction k with
  | zero =>
    intro newcap need hk
    rw [growCap]
    split_ifs with h1 h2 h3 <;> omega
  | succ k ih =>
    intro newcap need hk
    rw [growCap]
    split_ifs with h1 h2 h3
    · omega
    · exact le_trans h3.le (ih _ need (by omega))
    · omega
    · omega

theorem le_growCap (newcap need : Nat) : newcap ≤ growCap newcap need :=
  le_growCap_aux (need - newcap) newcap need le_rfl

/-- C6 (amended): a write of length 10 at offset 100000 into an empty
MemorySink succeeds (returns 10), grows capacity to 131072 (doubling once
from the 64KiB minimum) which covers 100010, sets the logical size to 100010,
and leaves every byte in [0, 100000) UNINITIALIZED — `realloc` does not
zero-fill, so the gap bytes are indeterminate, not zero.  In general
`grow_and_write` never shrinks capacity or size. -/
theorem memsink_write_100000 (buf : List Nat) (h : buf.length = 10) :
    (grow_and_write ⟨fun _ => none, 0, 0⟩ buf 100000).1 = 10 ∧
    (grow_and_write ⟨fun _ => none, 0, 0⟩ buf 100000).2.capacity = 131072 ∧
    100010 ≤ (grow_and_write ⟨fun _ => none, 0, 0⟩ buf 100000).2.capacity ∧
    (grow_and_write ⟨fun _ => none, 0, 0⟩ buf 100000).2.size = 100010 ∧
    (∀ i, i < 100000 → (grow_and_write ⟨fun _ => none, 0, 0⟩ buf 100000).2.data i = none) ∧
    (∀ (s : MemSink) (b : List Nat) (off : Nat),
      s.capacity ≤ (grow_and_write s b off).2.capacity ∧
      s.size ≤ (grow_and_write s b off).2.size) := by
  refine ⟨?_, ?_, ?_, ?_, ?_, ?_⟩
  · simp [grow_and_write, h, SIZE_MAX]
  · simp [grow_and_write, h, SIZE_MAX, growCap_65536_100010]
  · simp [grow_and_write, h, SIZE_MAX, growCap_65536_100010]
  · simp [grow_and_write, h, SIZE_MAX]
  · intro i hi
    simp only [grow_and_write, h, SIZE_MAX]
    norm_num
    intro h1 h2
    omega
  · intro s b off
    simp only [grow_and_write]
    constructor <;>
      (split_ifs <;> dsimp only at * <;>
        first
          | omega
          | (refine le_trans ?_ (le_growCap _ _); omega))

/-- C6 counterexample: after the length-10 write at offset 100000 into an
empty sink, byte 0 is NOT zero — it is uninitialized (`none`), because
`realloc` leaves the gap indeterminate. -/
theorem memsink_gap_not_zeroed :
    (grow_and_write ⟨fun _ => none, 0, 0⟩ (List.replicate 10 1) 100000).2.data 0 ≠
      some 0 := by
  simp only [grow_and_write, SIZE_MAX]
  norm_num
  simp

/-- C6 witness: the amended theorem applied to the all-ones buffer of
length 10. -/
theorem memsink_write_100000_witness :
    (List.replicate 10 1).length = 10 ∧
    (grow_and_write ⟨fun _ => none, 0, 0⟩ (List.replicate 10 1) 100000).2.size = 100010 :=
  ⟨by simp, (memsink_write_100000 (List.replicate 10 1) (by simp)).2.2.2.1⟩

/-! ## Decoder-output normalization and 16-bit enforcement
(src/raw-worker.js `onmessage`, lines 349-388). -/

/-- The normalized decoder output view: a `Uint16Array` of samples or a
`Uint8Array` of bytes. -/
inductive PixelsView
  | u16arr (data : List Nat)
  | u8arr (bytes : List Nat)

/-- The byte-pair recombination loop `u8[j] | (u8[j+1] << 8)` (an odd final
byte, if any, is ignored because the loop runs `length >>> 1` times). -/
def combine16 : List Nat → List Nat
  | b0 :: b1 :: rest => (b0 ||| (b1 <<< 8)) :: combine16 rest
  | _ => []

/-- The 16-bit enforcement of `onmessage` (lines 364-388): a 16-bit view must
have exactly width*height*3 elements; a byte view of width*height*3*2 bytes is
recombined little-endian; a byte view of exactly width*height*3 bytes (8-bit
data) is a hard failure, as is any other length. -/
def normalizePixels (width height : Nat) : PixelsView → Except String (List Nat)
  | .u16arr data =>
      if data.length ≠ width * height * 3 then
        .error "Unexpected data length for 16-bit image"
      else .ok data
  | .u8arr u8 =>
      if u8.length = width * height * 3 * 2 then
        .ok (combine16 u8)
      else if u8.length = width * height * 3 then
        .error "Decoder returned 8-bit data; 16-bit required"
      else .error "Unexpected imageData byte length"

/-- C7: for every resolved (positive) width and height, a 16-bit buffer whose
element count differs from width*height*3 fails, a byte buffer whose length
differs from width*height*3*2 fails, and in particular a byte buffer of
exactly width*height*3 bytes (8-bit data) is rejected as a hard failure,
never silently upcast. -/
theorem decoded_length_mismatch_fails (width height : Nat)
    (hw : 0 < width) (hh : 0 < height) :
    (∀ data : List Nat, data.length ≠ width * height * 3 →
      normalizePixels width height (.u16arr data) =
        .error "Unexpected data length for 16-bit image") ∧
    (∀ u8 : List Nat, u8.length ≠ width * height * 3 * 2 →
      ∃ msg, normalizePixels width height (.u8arr u8) = .error msg) ∧
    (∀ u8 : List Nat, u8.length = width * height * 3 →
      normalizePixels width height (.u8arr u8) =
        .error "Decoder returned 8-bit data; 16-bit required") := by
  have hwh : 0 < width * height := Nat.mul_pos hw hh
  refine ⟨?_, ?_, ?_⟩
  · intro data hne
    simp [normalizePixels, hne]
  · intro u8 hne
    simp only [normalizePixels]
    rw [if_neg hne]
    split_ifs <;> exact ⟨_, rfl⟩
  · intro u8 hlen
    have hne2 : u8.length ≠ width * height * 3 * 2 := by omega
    simp [normalizePixels, hne2, hlen]
    omega

/-- C7 witness: at width 1, height 1 an 8-bit byte buffer of length 3 is
rejected with the hard-failure message. -/
theorem decoded_length_mismatch_fails_witness :
    (0 : Nat) < 1 ∧
    normalizePixels 1 1 (.u8arr [0, 0, 0]) =
      .error "Decoder returned 8-bit data; 16-bit required" :=
  ⟨by decide, (decoded_length_mismatch_fails 1 1 (by decide) (by decide)).2.2 [0, 0, 0] rfl⟩

/-! ## Job protocol layer (`self.onmessage`, src/raw-worker.js lines 300-442).

The handler is modelled as a pure function from a job environment — the
incoming message fields plus the observable behavior of the RAW-decode
collaborator and the EXR engine — to the ordered list of messages it posts.
`postMessage` itself is assumed not to throw (the source swallows such
failures), and native-resource cleanup (close/recycle/delete, lines 425-427)
posts nothing and is not represented in the trace. -/

inductive Stage
  | opening | decoding | dimensions | pixelsPrepared | transformed | encoded
deriving DecidableEq

inductive Msg
  | progress (jobId : Option Nat) (stage : Stage)
  | result (jobId : Option Nat) (out : List Nat)
  | error (jobId : Option Nat) (msg : String)

/-- The `imageData()` result of the decoder: its own width/height fields (0 when
absent or falsy) and the normalized pixel view (`none` when the dynamic shape
inspection of lines 349-362 finds no usable buffer). -/
structure ImgData where
  width : Nat
  height : Nat
  view : Option PixelsView

/-- A job environment: message fields and collaborator behaviors. -/
structure JobEnv where
  cmd : Option String
  jobId : Option Nat
  pipeline : Option String
  format : Option String
  openResult : Except String Unit
  imgResult : Except String ImgData
  metadata : Option (Nat × Nat)
  engine : EngineResult

/-- Dimension resolution (lines 331-345): prefer the own fields of the image, fall
back to metadata, and fail when either dimension is still falsy. -/
def resolveDims (imgW imgH : Nat) (meta : Option (Nat × Nat)) :
    Except String (Nat × Nat) :=
  let w := if imgW ≠ 0 then imgW else (match meta with | some m => m.1 | none => 0)
  let h := if imgH ≠ 0 then imgH else (match meta with | some m => m.2 | none => 0)
  if w = 0 ∨ h = 0 then .error "Missing dimensions" else .ok (w, h)

/-- `getColorimetryForPipeline` (lines 575-598): white point, r/g/b primaries
and description char codes per pipeline. -/
def getColorimetryForPipeline (pipeline : Option String) :
    (ℚ × ℚ) × (ℚ × ℚ) × (ℚ × ℚ) × (ℚ × ℚ) × List Nat :=
  match pipeline.getD "ap0-linear" with
  | "acescct" =>
      ((0.32168, 0.33767), (0.713, 0.293), (0.165, 0.830), (0.128, 0.044),
        "ACEScct (AP1)".toList.map Char.toNat)
  | "arri-logc4" =>
      ((0.3127, 0.3290), (0.7347, 0.2653), (0.1424, 0.8576), (0.0991, -0.0308),
        "ARRI LogC4 (AWG4)".toList.map Char.toNat)
  | _ =>
      ((0.32168, 0.33767), (0.7347, 0.2653), (0.0000, 1.0000), (0.0001, -0.0770),
        "ACES2065-1 (AP0 Linear)".toList.map Char.toNat)

/-- Pipeline selection (lines 391-402): `data.pipeline` with default ap0-linear,
then acescct / arri-logc4 / default single-pass transform. -/
noncomputable def applyPipeline (pipeline : Option String) (pixelsU16 : List Nat) :
    List Nat :=
  match pipeline.getD "ap0-linear" with
  | "acescct" => apply709ToACEScctInPlace pixelsU16
  | "arri-logc4" => apply709ToAWG4LogC4InPlace pixelsU16
  | _ => applyBT709DecodeInPlace pixelsU16

/-- The transform-and-encode step (lines 391-422): transform in place, then
either delegate to the EXR engine (whose null/zero-size result throws) or
build the TIFF with the colorimetry of the pipeline. -/
noncomputable def encodeStep (env : JobEnv) (wh : Nat × Nat) (pixelsU16 : List Nat) :
    Except String (List Nat) :=
  let transformed := applyPipeline env.pipeline pixelsU16
  if env.format.getD "tiff" = "exr" then (encodeEXRFromRGB16Core env.engine).result
  else
    let ci := getColorimetryForPipeline env.pipeline
    .ok (encodeTiff16leWithColorimetry wh.1 wh.2 3 [16, 16, 16] [1, 1, 1] transformed
      (some ci.1) (some ci.2.1) (some ci.2.2.1) (some ci.2.2.2.1) ci.2.2.2.2)

/-- The message handler `onmessage` as a trace function: the ordered list of
messages posted for one incoming message. -/
noncomputable def runJob (env : JobEnv) : List Msg :=
  if env.cmd ≠ some "process" then []
  else
    match env.openResult with
    | .error m => [Msg.progress env.jobId .opening, Msg.error env.jobId m]
    | .ok _ =>
      match env.imgResult with
      | .error m =>
        [Msg.progress env.jobId .opening, Msg.progress env.jobId .decoding,
         Msg.error env.jobId m]
      | .ok img =>
        match resolveDims img.width img.height env.metadata with
        | .error m =>
          [Msg.progress env.jobId .opening, Msg.progress env.jobId .decoding,
           Msg.error env.jobId m]
        | .ok wh =>
          match img.view with
          | none =>
            [Msg.progress env.jobId .opening, Msg.progress env.jobId .decoding,
             Msg.progress env.jobId .dimensions,
             Msg.error env.jobId "Unexpected imageData type"]
          | some pv =>
            match normalizePixels wh.1 wh.2 pv with
            | .error m =>
              [Msg.progress env.jobId .opening, Msg.progress env.jobId .decoding,
               Msg.progress env.jobId .dimensions, Msg.error env.jobId m]
            | .ok pixelsU16 =>
              match encodeStep env wh pixelsU16 with
              | .error m =>
                [Msg.progress env.jobId .opening, Msg.progress env.jobId .decoding,
                 Msg.progress env.jobId .dimensions,
                 Msg.progress env.jobId .pixelsPrepared,
                 Msg.progress env.jobId .transformed, Msg.error env.jobId m]
              | .ok out =>
                [Msg.progress env.jobId .opening, Msg.progress env.jobId .decoding,
                 Msg.progress env.jobId .dimensions,
                 Msg.progress env.jobId .pixelsPrepared,
                 Msg.progress env.jobId .transformed,
                 Msg.progress env.jobId .encoded, Msg.result env.jobId out]

/-- The sequence of progress-stage labels in a trace, in emission order. -/
def stagesOf (trace : List Msg) : List Stage :=
  trace.filterMap (fun m => match m with | Msg.progress _ s => some s | _ => none)

/-- A concrete job environment whose run reaches the terminal Result message:
a 1x1 16-bit image, default pipeline, TIFF output. -/
noncomputable def sampleTiffEnv : JobEnv :=
  { cmd := some "process"
    jobId := some 7
    pipeline := none
    format := none
    openResult := .ok ()
    imgResult := .ok ⟨1, 1, some (.u16arr [0, 0, 0])⟩
    metadata := none
    engine := ⟨0, 0, fun _ => 0⟩ }

/-- C9 (amended): every job that reaches the terminal Result message emits
exactly the progress stages Opening, Decoding, Dimensions, Pixels-Prepared,
Transformed, Encoded — in that order, each carrying the job identifier —
followed by the Result message.  (The source emits a sixth stage,
`dimensions`, between Decoding and Pixels-Prepared, which the claimed
five-stage order omits.) -/
theorem job_progress_order (env : JobEnv) (jid : Option Nat) (out : List Nat)
    (h : (runJob env).getLast? = some (Msg.result jid out)) :
    jid = env.jobId ∧
    runJob env =
      [Msg.progress env.jobId .opening, Msg.progress env.jobId .decoding,
       Msg.progress env.jobId .dimensions, Msg.progress env.jobId .pixelsPrepared,
       Msg.progress env.jobId .transformed, Msg.progress env.jobId .encoded,
       Msg.result env.jobId out] := by
  by_cases hcmd : env.cmd ≠ some "process"
  · simp [runJob, hcmd, List.getLast?] at h
  · rcases hopen : env.openResult with mo | u
    · simp [runJob, hcmd, hopen, List.getLast?] at h
    · rcases himg : env.imgResult with mi | img
      · simp [runJob, hcmd, hopen, himg, List.getLast?] at h
      · rcases hdims : resolveDims img.width img.height env.metadata with md | wh
        · simp [runJob, hcmd, hopen, himg, hdims, List.getLast?] at h
        · rcases hview : img.view with _ | pv
          · simp [runJob, hcmd, hopen, himg, hdims, hview, List.getLast?] at h
          · rcases hnorm : normalizePixels wh.1 wh.2 pv with mn | px
            · simp [runJob, hcmd, hopen, himg, hdims, hview, hnorm,
                List.getLast?] at h
            · rcases henc : encodeStep env wh px with me | out2
              · simp [runJob, hcmd, hopen, himg, hdims, hview, hnorm, henc,
                  List.getLast?] at h
              · simp only [runJob, hcmd, hopen, himg, hdims, hview, hnorm, henc,
                  if_neg hcmd] at h ⊢
                simp [List.getLast?] at h
                exact ⟨h.1.symm, by simp [h.1, h.2]⟩

/-- C9 witness: the amended theorem applied to the concrete sample job. -/
theorem job_progress_order_witness :
    ∃ out, runJob sampleTiffEnv =
      [Msg.progress (some 7) .opening, Msg.progress (some 7) .decoding,
       Msg.progress (some 7) .dimensions, Msg.progress (some 7) .pixelsPrepared,
       Msg.progress (some 7) .transformed, Msg.progress (some 7) .encoded,
       Msg.result (some 7) out] :=
  ⟨_, (job_progress_order sampleTiffEnv (some 7) _ rfl).2⟩

/-- C9 counterexample: the sample job reaches the Result message, yet its
progress-stage sequence is NOT the claimed five-stage sequence — the worker
also emits a `dimensions` stage between Decoding and Pixels-Prepared. -/
theorem job_progress_stages_cex :
    (∃ out, (runJob sampleTiffEnv).getLast? = some (Msg.result (some 7) out)) ∧
    stagesOf (runJob sampleTiffEnv) ≠
      [Stage.opening, Stage.decoding, Stage.pixelsPrepared, Stage.transformed,
       Stage.encoded] ∧
    stagesOf (runJob sampleTiffEnv) =
      [Stage.opening, Stage.decoding, Stage.dimensions, Stage.pixelsPrepared,
       Stage.transformed, Stage.encoded] := by
  refine ⟨⟨_, rfl⟩, ?_, rfl⟩
  rw [show stagesOf (runJob sampleTiffEnv) =
    [Stage.opening, Stage.decoding, Stage.dimensions, Stage.pixelsPrepared,
     Stage.transformed, Stage.encoded] from rfl]
  decide

/-- C10: an incoming message whose cmd field is not the string `process`
(including a message with no data at all, whose cmd is absent) makes the
handler return without posting anything: no progress, no result, no error. -/
theorem non_process_message_ignored (env : JobEnv) (h : env.cmd ≠ some "process") :
    runJob env = [] := by
  unfold runJob
  rw [if_pos h]

/-- C10 witness: the theorem applied to a message with no cmd field. -/
theorem non_process_message_ignored_witness :
    runJob ({ cmd := none, jobId := none, pipeline := none, format := none,
              openResult := .ok (), imgResult := .error "no data",
              metadata := none, engine := ⟨0, 0, fun _ => 0⟩ } : JobEnv) = [] :=
  non_process_message_ignored _ (by decide)
